import Mathlib

/-!
Shallow embedding of the ai-sample-searcher analysis/indexing/search pipeline.

Sources embedded:
- `desktop_app/indexer.py` (`IndexerBackend.get_duration`, `get_bpm_and_key`,
  `run_indexing`)
- `desktop_app/app.py` (`BPMReanalysisWorker.run`, `MainWindow.apply_filters`,
  `MainWindow.do_search`, the key-filter combo-box options)
- `desktop_app/analyze_essentia_wsl.py` (`get_bpm_and_key_essentia`, `main`)
- `src/indexer.py` (module-level indexing loop; same duration-filter shape)

Python floats are modelled as exact rationals (`ℚ`); `None` as `Option.none`;
the ChromaDB collection as the list of ids it holds, with each
`collection.add` / `collection.update` call recorded explicitly so that the
number and size of store writes is observable.
-/

namespace SampleSearcher

/-- Supported audio extensions, from the tuple passed to `endswith` in
`IndexerBackend.run_indexing` (desktop_app/indexer.py line 219). -/
def audioExts : List String :=
  [".wav", ".mp3", ".aif", ".aiff", ".flac", ".ogg", ".opus", ".m4a", ".aac"]

/-- ASCII lowering of one character, modelling Python `str.lower` on the
ASCII file names involved. -/
def lowerChar (c : Char) : Char :=
  if 'A' ≤ c && c ≤ 'Z' then Char.ofNat (c.toNat + 32) else c

/-- Embeds `file.lower().endswith((...))` from `run_indexing`, expressed on
the character data so that it is kernel-executable: lower-case the name and
test each supported extension as a suffix. -/
def supportedAudio (name : String) : Bool :=
  audioExts.any (fun e => e.data.isSuffixOf (name.data.map lowerChar))

/-- Model of one file encountered while walking the directory tree.
`name` is the bare file name (`file` in the Python loop), `path` the
normalized full path, `duration` the result `get_duration` would return,
`embedding` the result `get_audio_embedding` would return, and
`bpm`/`key` the results `get_bpm_and_key` would return for it. -/
structure FileInfo where
  name : String
  path : String
  duration : Option ℚ
  embedding : Option (List ℚ)
  bpm : Option ℚ
  key : Option String
  deriving DecidableEq, Repr

/-- Embeds the duration test of `run_indexing` line 225:
`if duration is not None and duration <= MAX_DURATION` with
`MAX_DURATION = 10.0`.  A file is kept at this stage iff its probed
duration is known and at most 10 seconds. -/
def durationKeep : Option ℚ → Bool
  | none => false
  | some d => decide (d ≤ 10)

/-- Embeds the candidate-collection loop of `run_indexing`
(desktop_app/indexer.py lines 217-226): keep a walked file iff its name has a
supported audio extension, its normalized path is not already an id in the
collection, and `durationKeep` accepts its probed duration. -/
def selectCandidates (existing : List String) (files : List FileInfo) :
    List FileInfo :=
  files.filter (fun f =>
    supportedAudio f.name && !(existing.contains f.path) && durationKeep f.duration)

/-- Metadata written for a newly indexed sample
(`run_indexing` lines 239-244). -/
structure SampleRecord where
  id : String
  filename : String
  bpm : ℚ
  key : String
  engine : String
  deriving DecidableEq, Repr

/-- Embeds the metadata assembly of `run_indexing` lines 239-251:
`bpm if bpm is not None else 0.0`, `key if key is not None else ""`,
engine tag `self.audio_engine.lower()` which is `"librosa"`. -/
def mkRecord (f : FileInfo) : SampleRecord :=
  { id := f.path
    filename := f.name
    bpm := f.bpm.getD 0
    key := f.key.getD ""
    engine := "librosa" }

/-- Observable outcome of `run_indexing`: the returned count, the list of
store calls (each `collection.add` call is one element, holding the records
written by that call), and the sequence of percentages passed to the
progress callback. -/
structure IndexResult where
  count : ℕ
  storeCalls : List (List SampleRecord)
  progress : List ℕ
  deriving DecidableEq, Repr

/-- Embeds the indexing loop of `run_indexing` lines 229-256 over the
already-selected candidates.  `total` is `len(files_to_process)`; `i` the
running index of `enumerate`.  For each file: compute the embedding; on a
truthy vector (`if vector:` — non-`None` and non-empty) assemble the record
and issue one `collection.add` call with exactly that record, incrementing
the count; in every case emit `int(((i+1)/total)*100)` to the progress
callback (exact-rational semantics: truncating division). -/
def indexLoopAux (total : ℕ) : ℕ → List FileInfo → IndexResult
  | _, [] => ⟨0, [], []⟩
  | i, f :: rest =>
    let r := indexLoopAux total (i + 1) rest
    let pct := (100 * (i + 1)) / total
    match f.embedding with
    | some v =>
      if v.isEmpty then ⟨r.count, r.storeCalls, pct :: r.progress⟩
      else ⟨r.count + 1, [mkRecord f] :: r.storeCalls, pct :: r.progress⟩
    | none => ⟨r.count, r.storeCalls, pct :: r.progress⟩

/-- Embeds `IndexerBackend.run_indexing` (desktop_app/indexer.py lines
212-257): select candidates, then run the indexing loop. -/
def runIndexing (existing : List String) (files : List FileInfo) : IndexResult :=
  let cands := selectCandidates existing files
  indexLoopAux cands.length 0 cands

/-! Tempo post-processing (desktop_app/indexer.py lines 143-160,
desktop_app/analyze_essentia_wsl.py lines 90-104). -/

/-- Embeds the candidate construction of `get_bpm_and_key` lines 147-151:
`candidates = [base_bpm]`, append `base_bpm * 2` when `base_bpm < 80`,
append `base_bpm / 2` when `base_bpm > 160`. -/
def octaveCandidates (base : ℚ) : List ℚ :=
  [base] ++ (if base < 80 then [base * 2] else [])
    ++ (if base > 160 then [base / 2] else [])

/-- Embeds line 154: `[b for b in candidates if 40 <= b <= 200]`. -/
def validCandidates (base : ℚ) : List ℚ :=
  (octaveCandidates base).filter (fun b => 40 ≤ b && b ≤ 200)

/-- Embeds Python `min(valid_candidates, key=lambda x: abs(x - 120))`
(line 159): the first element attaining the minimal distance to 120 wins,
since Python `min` replaces the running best only on a strictly smaller key. -/
def minByDist120 : List ℚ → Option ℚ
  | [] => none
  | x :: xs =>
    some (xs.foldl (fun best c => if |c - 120| < |best - 120| then c else best) x)

/-- Embeds Python banker's rounding `round(x, 1)` (line 160) over exact
rationals: round `10 * x` to the nearest integer, ties to even, divide by 10. -/
def roundHalfEven (y : ℚ) : ℤ :=
  if y - (⌊y⌋ : ℚ) < 1 / 2 then ⌊y⌋
  else if 1 / 2 < y - (⌊y⌋ : ℚ) then ⌊y⌋ + 1
  else if Even ⌊y⌋ then ⌊y⌋ else ⌊y⌋ + 1

/-- Embeds `round(final_bpm, 1)`. -/
def pyRound1 (x : ℚ) : ℚ := (roundHalfEven (10 * x) : ℚ) / 10

/-- Embeds the BPM post-processing of `IndexerBackend.get_bpm_and_key`
(lines 145-160) as a function of the base tempo `librosa.beat.tempo`
returned: build candidates, filter to [40, 200], and when any survive pick
the one closest to 120 and round to one decimal; otherwise `bpm` stays
`None`. -/
def librosaBpmPost (base : ℚ) : Option ℚ :=
  (minByDist120 (validCandidates base)).map pyRound1

/-- Embeds the BPM post-processing of `get_bpm_and_key_essentia`
(analyze_essentia_wsl.py lines 90-104): identical candidate heuristic, but
guarded by `if bpm_value > 0` so a non-positive extractor output is never
post-processed. -/
def essentiaBpmPost (base : ℚ) : Option ℚ :=
  if 0 < base then (minByDist120 (validCandidates base)).map pyRound1 else none

/-! Key strings (desktop_app/indexer.py lines 173-202,
analyze_essentia_wsl.py lines 159-162, app.py lines 1157-1161). -/

/-- Pitch-class names from `get_bpm_and_key` line 173 (the source writes the
twelve names in one list literal, from "C" up to "B"). -/
def pitchClasses : List String :=
  ["C", "C#", "D", "D#", "E", "F"] ++ ["F#", "G", "G#", "A", "A#", "B"]

/-- Every key string the librosa engine can emit:
`f"{best_match[0]} {best_match[1]}"` with `best_match[1] ∈ {Maj, Min}`
(lines 194-202). -/
def librosaKeyStrings : List String :=
  pitchClasses.flatMap (fun pc => [pc ++ " Maj", pc ++ " Min"])

/-- Embeds the essentia key formatting (analyze_essentia_wsl.py lines
160-162): `scale_abbr = "maj" if detected_scale == "major" else "min"`,
`key = f"{detected_key} {scale_abbr}"`. -/
def essentiaKeyString (detectedKey detectedScale : String) : String :=
  detectedKey ++ " " ++ (if detectedScale = "major" then "maj" else "min")

/-- Option strings of the Musical Key combo box
(desktop_app/app.py lines 1158-1160). -/
def keyFilterOptions : List String :=
  ["All", "C maj", "C min", "C# maj", "C# min", "D maj", "D min", "D# maj",
   "D# min", "E maj", "E min", "F maj", "F min", "F# maj", "F# min", "G maj",
   "G min", "G# maj", "G# min", "A maj", "A min", "A# maj", "A# min", "B maj",
   "B min"]

/-! Search and filter engine (desktop_app/app.py `MainWindow.apply_filters`
lines 1764-1869 and `MainWindow.do_search` lines 1871-1890). -/

/-- Model of one item returned by `SampleSearcher.search`: the store id
(`route`), `filename`, distance (`score`), and the metadata fields read by
the filters.  `bpm` is the value after the `None -> 0` coercion of
app.py lines 1822-1824; `ext` is `os.path.splitext(filename)[1].lower().strip
('.')`; `probeDur` is the duration the lazy probe of lines 1838-1859 would
yield (`none` when the file is missing or unparsable). -/
structure SearchItem where
  filename : String
  route : String
  score : ℚ
  bpm : ℚ
  key : String
  ext : String
  probeDur : Option ℚ

/-- Embeds app.py line 1782:
`similarity_percent = max(0, min(100, (1 - distance / 2) * 100))`. -/
def similarityPercent (d : ℚ) : ℚ :=
  max 0 (min 100 ((1 - d / 2) * 100))

/-- Filter settings read from the UI widgets at the top of `apply_filters`.
The include/exclude regex matchers are abstracted as `Option (String → Bool)`:
`none` models an empty pattern (and, per lines 1801-1802 and 1809-1810, an
invalid regex, which is treated as no filter); `some t` models a valid
pattern whose case-insensitive `re.search` test is `t`. -/
structure FilterSettings where
  includeTest : Option (String → Bool)
  excludeTest : Option (String → Bool)
  minDur : ℚ
  maxDur : ℚ
  fmt : String
  minSim : ℚ
  maxSim : ℚ
  minBpm : ℚ
  maxBpm : ℚ
  keyFilt : String

/-- Embeds the BPM filter of `apply_filters` lines 1818-1827: active only
when `min_bpm_val > 0 or max_bpm_val < 300`; applied only when the record's
`bpm > 0`; such a record passes iff `min ≤ bpm ≤ max`. -/
def bpmPass (minB maxB bpm : ℚ) : Bool :=
  if minB > 0 || maxB < 300 then
    if bpm > 0 then !(bpm < minB || bpm > maxB) else true
  else true

/-- Embeds the key filter of `apply_filters` lines 1829-1834: when the combo
box is not `"All"`, drop the item unless its stored key string equals the
selected option exactly. -/
def keyPass (filt key : String) : Bool :=
  if filt = "All" then true else decide (key = filt)

/-- Embeds the duration filter of `apply_filters` lines 1836-1865: active
only when `min_dur > 0 or max_dur < 999`; an unresolvable duration passes;
a probed duration `d` passes iff not (`d < min_dur or d > max_dur`). -/
def durPass (minD maxD : ℚ) : Option ℚ → Bool
  | some d => !(d < minD || d > maxD)
  | none => true

/-- Conjunction of the `continue` tests of the `apply_filters` loop, in
source order: similarity range (line 1793), include pattern (1797-1802),
exclude pattern (1805-1810), format equality (1813-1816), BPM range
(1818-1827), key equality (1829-1834), duration range (1836-1865). -/
def keepItem (s : FilterSettings) (it : SearchItem) : Bool :=
  let sim := similarityPercent it.score
  !(sim < s.minSim || sim > s.maxSim)
  && (match s.includeTest with | none => true | some t => t it.filename)
  && (match s.excludeTest with | none => true | some t => !t it.filename)
  && (if s.fmt = "All" then true else decide (it.ext = s.fmt))
  && bpmPass s.minBpm s.maxBpm it.bpm
  && keyPass s.keyFilt it.key
  && (if s.minDur > 0 || s.maxDur < 999 then durPass s.minDur s.maxDur it.probeDur
      else true)

/-- Embeds `MainWindow.apply_filters`: keep the items passing every active
filter, in their incoming order, each paired with its similarity
percentage. -/
def applyFilters (s : FilterSettings) (results : List SearchItem) :
    List (SearchItem × ℚ) :=
  (results.filter (keepItem s)).map (fun it => (it, similarityPercent it.score))

/-- Embeds `MainWindow.do_search` lines 1880-1890 given the ranked response
`store` that `engine.search` would deliver: over-fetch
`fetch_k = min(100, top_k * 3)` items, apply the filters, truncate to
`top_k`. -/
def doSearch (s : FilterSettings) (topK : ℕ) (store : List SearchItem) :
    List (SearchItem × ℚ) :=
  (applyFilters s (store.take (min 100 (topK * 3)))).take topK

/-! Re-analysis worker (desktop_app/app.py `BPMReanalysisWorker.run` lines
105-145; the essentia batch pass of analyze_essentia_wsl.py lines 249-286
has the same merge and batching shape, plus an `or args.force` on the
persist condition). -/

/-- Stored metadata of an indexed sample, as read back for re-analysis. -/
structure Meta where
  bpm : ℚ
  key : String
  engine : String
  deriving DecidableEq, Repr

/-- One candidate of the re-analysis loop: its store id, its current
metadata, and the `(bpm, key)` pair `get_bpm_and_key` would return for it. -/
structure ReCand where
  id : String
  meta : Meta
  bpmRes : Option ℚ
  keyRes : Option String
  deriving DecidableEq, Repr

/-- Embeds the merge step of `BPMReanalysisWorker.run` lines 113-122:
overwrite `bpm` only when the result is not `None` and `> 0`, overwrite
`key` only when the result is not `None`, always set
`analysis_engine` in the in-memory metadata, and report whether anything
was updated (`updated_something`). -/
def mergeStep (engine : String) (m : Meta) (bpmRes : Option ℚ)
    (keyRes : Option String) : Meta × Bool :=
  let (m1, u1) := match bpmRes with
    | some b => if 0 < b then ({ m with bpm := b }, true) else (m, false)
    | none => (m, false)
  let (m2, u2) := match keyRes with
    | some k => ({ m1 with key := k }, true)
    | none => (m1, false)
  ({ m2 with engine := engine }, u1 || u2)

/-- Embeds the batched-update loop of `BPMReanalysisWorker.run` lines
108-145: a merged record joins `batch_updates` only when
`updated_something`; a `collection.update` call is issued whenever the
batch reaches 50, and once more at the end for a non-empty remainder.
Returns the list of `collection.update` calls, each holding the
`(id, metadata)` pairs it persists. -/
def reanalysisLoop (engine : String) :
    List ReCand → List (String × Meta) → List (List (String × Meta))
  | [], batch => if batch.isEmpty then [] else [batch]
  | c :: rest, batch =>
    let (m, u) := mergeStep engine c.meta c.bpmRes c.keyRes
    if u then
      if 50 ≤ (batch ++ [(c.id, m)]).length then
        (batch ++ [(c.id, m)]) :: reanalysisLoop engine rest []
      else reanalysisLoop engine rest (batch ++ [(c.id, m)])
    else reanalysisLoop engine rest batch

/-- Store calls issued by one full run of the re-analysis worker. -/
def runReanalysis (engine : String) (cands : List ReCand) :
    List (List (String × Meta)) :=
  reanalysisLoop engine cands []

/-- Per-candidate persisted updates: the update a candidate contributes, if
any (it contributes exactly when `updated_something` held for it). -/
def reanalysisUpdates (engine : String) (cands : List ReCand) :
    List (String × Meta) :=
  cands.filterMap (fun c =>
    let (m, u) := mergeStep engine c.meta c.bpmRes c.keyRes
    if u then some (c.id, m) else none)

/-! Concrete inputs used by counterexamples and witnesses. -/

/-- Supported audio file whose duration probe fails (`get_duration` returns
`None`), with a perfectly good embedding. -/
def fileUnknownDur : FileInfo :=
  ⟨"kick.wav", "samples/kick.wav", none, some [1], none, none⟩

/-- Supported audio file whose probed duration is negative (a corrupt
header), with a good embedding. -/
def fileNegDur : FileInfo :=
  ⟨"weird.wav", "samples/weird.wav", some (-1), some [1], none, none⟩

/-- A fresh supported file that probes at 1 second and embeds successfully.
`run_indexing` never refreshes `existing_ids` inside its walk, so a batch of
`n` new files is modelled as `List.replicate n demoFile`. -/
def demoFile : FileInfo :=
  ⟨"kick2.wav", "samples/kick2.wav", some 1, some [1], some 120, some "C Maj"⟩

/-- Three candidate files; the middle one fails embedding, so that the
progress sequence is observed across a failure. -/
def demoFiles3 : List FileInfo :=
  [⟨"a.wav", "pa", some 1, some [1], none, none⟩,
   ⟨"b.wav", "pb", some 1, none, none, none⟩,
   ⟨"c.wav", "pc", some 1, some [1], none, none⟩]

/-- Re-analysis candidate yielding a fresh BPM and key, so that it is always
batched; a batch of `n` of them is `List.replicate n demoReCand`. -/
def demoReCand : ReCand :=
  ⟨"samples/kick2.wav", ⟨0, "", "librosa"⟩, some 120, some "C maj"⟩

/-- Re-analysis candidate whose analysis yields `(None, None)` (decode
failure or low-confidence results), with a prior engine tag. -/
def reCandBothNone : ReCand := ⟨"pa", ⟨95, "D Min", "essentia"⟩, none, none⟩

/-- Filter settings with every widget at its no-op default. -/
def demoSettings : FilterSettings :=
  ⟨none, none, 0, 999, "All", 0, 100, 0, 300, "All"⟩

/-- One-item store response. -/
def demoStore : List SearchItem :=
  [⟨"a.wav", "pa", 1 / 5, 120, "C maj", "wav", none⟩]

/-! Helper lemmas. -/

theorem durationKeep_iff (d : Option ℚ) :
    durationKeep d = true ↔ ∃ x, d = some x ∧ x ≤ 10 := by
  cases d <;> simp [durationKeep]

theorem minFold_mem (x : ℚ) (xs : List ℚ) :
    xs.foldl (fun best c => if |c - 120| < |best - 120| then c else best) x ∈
      x :: xs := by
  induction xs generalizing x with
  | nil => simp
  | cons c cs ih =>
    simp only [List.foldl_cons]
    by_cases hcx : |c - 120| < |x - 120|
    · rw [if_pos hcx]
      rcases List.mem_cons.mp (ih c) with h | h <;> simp [h]
    · rw [if_neg hcx]
      rcases List.mem_cons.mp (ih x) with h | h <;> simp [h]

theorem minFold_min (x : ℚ) (xs : List ℚ) :
    ∀ y ∈ x :: xs,
      |xs.foldl (fun best c => if |c - 120| < |best - 120| then c else best) x
          - 120| ≤ |y - 120| := by
  induction xs generalizing x with
  | nil => intro y hy; simp at hy; simp [hy]
  | cons c cs ih =>
    intro y hy
    simp only [List.foldl_cons]
    by_cases hcx : |c - 120| < |x - 120|
    · rw [if_pos hcx]
      rcases List.mem_cons.mp hy with h | hy'
      · rw [h]
        exact le_trans (ih c c (List.mem_cons_self c cs)) (le_of_lt hcx)
      rcases List.mem_cons.mp hy' with h | hy''
      · rw [h]
        exact ih c c (List.mem_cons_self c cs)
      · exact ih c y (List.mem_cons_of_mem c hy'')
    · rw [if_neg hcx]
      rcases List.mem_cons.mp hy with h | hy'
      · rw [h]
        exact ih x x (List.mem_cons_self x cs)
      rcases List.mem_cons.mp hy' with h | hy''
      · rw [h]
        exact le_trans (ih x x (List.mem_cons_self x cs)) (le_of_not_lt hcx)
      · exact ih x y (List.mem_cons_of_mem x hy'')

theorem minByDist120_mem {l : List ℚ} {q : ℚ} (h : minByDist120 l = some q) :
    q ∈ l := by
  cases l with
  | nil => simp [minByDist120] at h
  | cons x xs =>
    simp only [minByDist120, Option.some.injEq] at h
    rw [← h]
    exact minFold_mem x xs

theorem minByDist120_min {l : List ℚ} {q : ℚ} (h : minByDist120 l = some q) :
    ∀ c ∈ l, |q - 120| ≤ |c - 120| := by
  cases l with
  | nil => simp [minByDist120] at h
  | cons x xs =>
    simp only [minByDist120, Option.some.injEq] at h
    rw [← h]
    exact minFold_min x xs

theorem le_roundHalfEven {m : ℤ} {y : ℚ} (h : (m : ℚ) ≤ y) :
    m ≤ roundHalfEven y := by
  have hm : m ≤ ⌊y⌋ := Int.le_floor.mpr h
  unfold roundHalfEven
  split_ifs <;> omega

theorem roundHalfEven_le {M : ℤ} {y : ℚ} (h : y ≤ (M : ℚ)) :
    roundHalfEven y ≤ M := by
  have hM : ⌊y⌋ ≤ M := by
    have := Int.floor_le_floor h
    simpa using this
  unfold roundHalfEven
  split_ifs with h1 h2 h3
  · exact hM
  all_goals
    have hfl : (⌊y⌋ : ℚ) < y := by
      have hge : (1 : ℚ) / 2 ≤ y - (⌊y⌋ : ℚ) := le_of_not_lt h1
      linarith
  · have : ⌊y⌋ < M := by exact_mod_cast lt_of_lt_of_le hfl h
    omega
  · have : ⌊y⌋ < M := by exact_mod_cast lt_of_lt_of_le hfl h
    omega
  · have : ⌊y⌋ < M := by exact_mod_cast lt_of_lt_of_le hfl h
    omega

theorem pyRound1_bounds {x : ℚ} (h1 : 40 ≤ x) (h2 : x ≤ 200) :
    40 ≤ pyRound1 x ∧ pyRound1 x ≤ 200 := by
  have hlo : (400 : ℤ) ≤ roundHalfEven (10 * x) :=
    le_roundHalfEven (by push_cast; linarith)
  have hhi : roundHalfEven (10 * x) ≤ (2000 : ℤ) :=
    roundHalfEven_le (by push_cast; linarith)
  have hlo' : (400 : ℚ) ≤ (roundHalfEven (10 * x) : ℚ) := by exact_mod_cast hlo
  have hhi' : (roundHalfEven (10 * x) : ℚ) ≤ 2000 := by exact_mod_cast hhi
  unfold pyRound1
  constructor <;> linarith

theorem mem_validCandidates {base c : ℚ} (h : c ∈ validCandidates base) :
    40 ≤ c ∧ c ≤ 200 := by
  have := (List.mem_filter.mp h).2
  simpa using this

theorem bpmPost_core {base b : ℚ}
    (h : (minByDist120 (validCandidates base)).map pyRound1 = some b) :
    0 < b ∧ 40 ≤ b ∧ b ≤ 200 := by
  obtain ⟨q, hq, hb⟩ := Option.map_eq_some'.mp h
  obtain ⟨hq1, hq2⟩ := mem_validCandidates (minByDist120_mem hq)
  obtain ⟨hb1, hb2⟩ := pyRound1_bounds hq1 hq2
  rw [← hb]
  exact ⟨by linarith, hb1, hb2⟩

theorem indexLoopAux_cons_progress (total i : ℕ) (f : FileInfo)
    (rest : List FileInfo) :
    (indexLoopAux total i (f :: rest)).progress =
      (100 * (i + 1)) / total :: (indexLoopAux total (i + 1) rest).progress := by
  rw [indexLoopAux]
  cases f.embedding with
  | none => rfl
  | some v =>
    dsimp only
    split <;> rfl

theorem indexLoopAux_cons_calls (total i : ℕ) (f : FileInfo)
    (rest : List FileInfo) :
    (indexLoopAux total i (f :: rest)).storeCalls =
        (indexLoopAux total (i + 1) rest).storeCalls ∨
      (indexLoopAux total i (f :: rest)).storeCalls =
        [mkRecord f] :: (indexLoopAux total (i + 1) rest).storeCalls := by
  rw [indexLoopAux]
  cases f.embedding with
  | none => left; rfl
  | some v =>
    dsimp only
    by_cases hv : v.isEmpty = true
    · rw [if_pos hv]
      left; rfl
    · rw [if_neg hv]
      right; rfl

theorem indexLoopAux_progress (fs : List FileInfo) :
    ∀ total i, (indexLoopAux total i fs).progress =
      (List.range fs.length).map (fun j => (100 * (i + j + 1)) / total) := by
  induction fs with
  | nil => intro total i; simp [indexLoopAux]
  | cons f rest ih =>
    intro total i
    have hrange : List.range (rest.length + 1) =
        0 :: (List.range rest.length).map Nat.succ := List.range_succ_eq_map _
    have htail : ((List.range rest.length).map Nat.succ).map
        (fun j => (100 * (i + j + 1)) / total) =
        (List.range rest.length).map (fun j => (100 * (i + 1 + j + 1)) / total) := by
      rw [List.map_map]
      refine List.map_congr_left ?_
      intro j _
      simp only [Function.comp_apply, Nat.succ_eq_add_one]
      congr 1
      omega
    rw [indexLoopAux_cons_progress, ih total (i + 1), List.length_cons, hrange,
      List.map_cons, htail]

theorem indexLoopAux_calls_len (fs : List FileInfo) :
    ∀ total i call, call ∈ (indexLoopAux total i fs).storeCalls →
      call.length = 1 := by
  induction fs with
  | nil => intro total i call h; simp [indexLoopAux] at h
  | cons f rest ih =>
    intro total i call h
    rcases indexLoopAux_cons_calls total i f rest with hc | hc
    · rw [hc] at h
      exact ih total (i + 1) call h
    · rw [hc] at h
      rcases List.mem_cons.mp h with hcall | hcall
      · rw [hcall]; rfl
      · exact ih total (i + 1) call hcall

theorem reanalysisLoop_flatten (engine : String) (cands : List ReCand) :
    ∀ batch, (reanalysisLoop engine cands batch).flatten =
      batch ++ reanalysisUpdates engine cands := by
  induction cands with
  | nil =>
    intro batch
    cases batch <;> simp [reanalysisLoop, reanalysisUpdates]
  | cons c rest ih =>
    intro batch
    rcases hm : mergeStep engine c.meta c.bpmRes c.keyRes with ⟨m, u⟩
    cases u with
    | false =>
      have hupd : reanalysisUpdates engine (c :: rest) =
          reanalysisUpdates engine rest := by
        unfold reanalysisUpdates
        rw [List.filterMap_cons_none]
        simp [hm]
      have hstep : reanalysisLoop engine (c :: rest) batch =
          reanalysisLoop engine rest batch := by
        rw [reanalysisLoop, hm]
        rfl
      rw [hstep, ih batch, hupd]
    | true =>
      have hupd : reanalysisUpdates engine (c :: rest) =
          (c.id, m) :: reanalysisUpdates engine rest := by
        unfold reanalysisUpdates
        rw [List.filterMap_cons_some]
        simp [hm]
      by_cases hlen : 50 ≤ (batch ++ [(c.id, m)]).length
      · have hstep : reanalysisLoop engine (c :: rest) batch =
            (batch ++ [(c.id, m)]) :: reanalysisLoop engine rest [] := by
          rw [reanalysisLoop, hm]
          exact if_pos hlen
        rw [hstep, List.flatten_cons, ih [], hupd]
        simp
      · have hstep : reanalysisLoop engine (c :: rest) batch =
            reanalysisLoop engine rest (batch ++ [(c.id, m)]) := by
          rw [reanalysisLoop, hm]
          exact if_neg hlen
        rw [hstep, ih (batch ++ [(c.id, m)]), hupd]
        simp

theorem similarityPercent_antitone {d1 d2 : ℚ} (h : d1 ≤ d2) :
    similarityPercent d2 ≤ similarityPercent d1 := by
  have hlin : (1 - d2 / 2) * 100 ≤ (1 - d1 / 2) * 100 := by linarith
  exact max_le_max le_rfl (min_le_min le_rfl hlin)

theorem mergeStep_engine (e : String) (m : Meta) (br : Option ℚ)
    (kr : Option String) : (mergeStep e m br kr).1.engine = e := by
  cases br with
  | none => cases kr <;> rfl
  | some b =>
    by_cases hb : (0 : ℚ) < b
    · cases kr <;> simp [mergeStep, hb]
    · cases kr <;> simp [mergeStep, hb]

theorem mergeStep_bpm_none (e : String) (m : Meta) (kr : Option String) :
    (mergeStep e m none kr).1.bpm = m.bpm := by
  cases kr <;> rfl

theorem mergeStep_bpm_some (e : String) (m : Meta) (kr : Option String)
    (b : ℚ) (hb : 0 < b) : (mergeStep e m (some b) kr).1.bpm = b := by
  cases kr <;> simp [mergeStep, hb]

theorem mergeStep_key_none (e : String) (m : Meta) (br : Option ℚ) :
    (mergeStep e m br none).1.key = m.key := by
  cases br with
  | none => rfl
  | some b =>
    by_cases hb : (0 : ℚ) < b <;> simp [mergeStep, hb]

theorem mergeStep_key_some (e : String) (m : Meta) (br : Option ℚ)
    (k : String) : (mergeStep e m br (some k)).1.key = k := by
  cases br with
  | none => rfl
  | some b =>
    by_cases hb : (0 : ℚ) < b <;> simp [mergeStep, hb]

theorem reanalysisUpdates_singleton (e : String) (c : ReCand) :
    reanalysisUpdates e [c] =
      if (mergeStep e c.meta c.bpmRes c.keyRes).2 = true then
        [(c.id, (mergeStep e c.meta c.bpmRes c.keyRes).1)]
      else [] := by
  rcases hm : mergeStep e c.meta c.bpmRes c.keyRes with ⟨m, u⟩
  cases u <;> simp [reanalysisUpdates, hm]

/-! Claim theorems. -/

/-- C1, counterexample. The claim says a candidate with unknown probed
duration is NOT skipped and that a known non-positive duration IS skipped;
`run_indexing` line 225 (`if duration is not None and duration <= MAX_DURATION`)
does the opposite on both counts: the unknown-duration file is dropped from
`files_to_process`, while the file probing at -1 seconds survives. -/
theorem C1_counterexample :
    fileUnknownDur.duration = none ∧
    supportedAudio fileUnknownDur.name = true ∧
    selectCandidates [] [fileUnknownDur] = [] ∧
    fileNegDur.duration = some (-1) ∧
    selectCandidates [] [fileNegDur] = [fileNegDur] := by decide

/-- C1, amended claim. At the duration-filter stage a candidate file is kept
iff its probed duration is known and at most the 10-second ceiling: files
with unknown duration are skipped, and known non-positive durations pass
(they satisfy `duration <= 10`). -/
theorem C1_duration_filter :
    (∀ (existing : List String) (files : List FileInfo) (f : FileInfo),
        f ∈ selectCandidates existing files ↔
          f ∈ files ∧ supportedAudio f.name = true ∧
            existing.contains f.path = false ∧
            ∃ d, f.duration = some d ∧ d ≤ 10) ∧
    durationKeep none = false ∧ durationKeep (some (-1)) = true := by
  refine ⟨?_, rfl, by decide⟩
  intro existing files f
  rw [selectCandidates, List.mem_filter]
  constructor
  · rintro ⟨hf, hp⟩
    simp only [Bool.and_eq_true, Bool.not_eq_true'] at hp
    exact ⟨hf, hp.1.1, by simpa using hp.1.2, (durationKeep_iff f.duration).mp hp.2⟩
  · rintro ⟨hf, h1, h2, h3⟩
    refine ⟨hf, ?_⟩
    simp only [Bool.and_eq_true, Bool.not_eq_true']
    exact ⟨⟨h1, by simpa using h2⟩, (durationKeep_iff f.duration).mpr h3⟩

/-- C1, witness for the amended claim at a concrete input: `demoFile` (known
1-second duration, fresh path) is selected. -/
theorem C1_duration_filter_witness :
    demoFile ∈ selectCandidates [] [demoFile] :=
  ((C1_duration_filter.1 [] [demoFile] demoFile).mpr
    ⟨by decide, by decide, by decide, 1, rfl, by norm_num⟩)

set_option maxRecDepth 8000 in
/-- C2, counterexample. The claim predicts that 127 new files are persisted
through batched flushes of sizes 50, 50, 27; `run_indexing` lines 246-251
instead issue one `collection.add` per record, so 127 store calls of one
record each are made. -/
theorem C2_counterexample :
    (runIndexing [] (List.replicate 127 demoFile)).storeCalls.map
        List.length = List.replicate 127 1 ∧
    (runIndexing [] (List.replicate 127 demoFile)).storeCalls.length = 127 ∧
    List.replicate 127 (1 : ℕ) ≠ [50, 50, 27] := by decide

/-- C2, amended claim. During indexing every store write carries exactly one
record (`collection.add` per file; no pending-write batch exists in
`run_indexing`); the flush-every-50-plus-remainder batching is performed by
the re-analysis workers, where 127 updated records do produce update calls
of sizes 50, 50, 27. -/
theorem C2_batching :
    (∀ (existing : List String) (files : List FileInfo)
        (call : List SampleRecord),
        call ∈ (runIndexing existing files).storeCalls → call.length = 1) ∧
    (runReanalysis "librosa" (List.replicate 127 demoReCand)).map
      List.length = [50, 50, 27] := by
  constructor
  · intro existing files call h
    exact indexLoopAux_calls_len _ _ _ call h
  · decide

/-- C2, witness: the single store call of a one-file indexing run holds
exactly one record. -/
theorem C2_batching_witness :
    [mkRecord demoFile] ∈ (runIndexing [] [demoFile]).storeCalls ∧
    List.length [mkRecord demoFile] = 1 :=
  ⟨by decide, C2_batching.1 [] [demoFile] [mkRecord demoFile] (by decide)⟩

/-- C3, counterexample. The claim says progress is reported as
`round(100 * processed/total)`; the code (line 254) computes
`int(((i+1)/total)*100)`, which truncates. At the second of three candidates
the code reports 66 while the claimed formula gives
`round(200/3) = 67`. -/
theorem C3_counterexample :
    (runIndexing [] demoFiles3).progress = [33, 66, 100] ∧
    round ((100 * (1 + 1) : ℚ) / 3) = 67 ∧ (66 : ℕ) ≠ 67 := by
  refine ⟨by decide, by norm_num [round_eq], by decide⟩

/-- C3, amended claim. After each processed candidate the progress callback
is invoked — regardless of that file's success, skip, or failure — with the
truncated value `int(100 * processed/total)` (floor, not round): the emitted
sequence is exactly `⌊100(i+1)/total⌋` for `i = 0 .. total-1`. -/
theorem C3_progress_truncation :
    ∀ (existing : List String) (files : List FileInfo),
      (runIndexing existing files).progress =
        (List.range (selectCandidates existing files).length).map
          (fun i => (100 * (i + 1)) / (selectCandidates existing files).length) := by
  intro existing files
  have h := indexLoopAux_progress (selectCandidates existing files)
      (selectCandidates existing files).length 0
  have hrw : (runIndexing existing files).progress =
      (indexLoopAux (selectCandidates existing files).length 0
        (selectCandidates existing files)).progress := rfl
  rw [hrw, h]
  exact List.map_congr_left (fun j _ => by simp)

/-- C3, witness: the truncation formula evaluated on the three-file run,
including the file whose embedding fails. -/
theorem C3_progress_truncation_witness :
    (runIndexing [] demoFiles3).progress =
      (List.range (selectCandidates [] demoFiles3).length).map
        (fun i => (100 * (i + 1)) / (selectCandidates [] demoFiles3).length) :=
  C3_progress_truncation [] demoFiles3

/-- C4, counterexample. In re-analysis mode a candidate whose BPM and key
results are both `None` never reaches `batch_updates`
(`if updated_something:` at app.py line 124), so no update is persisted for
it at all: its stored `analysis_engine` tag keeps its prior value
(`"essentia"` here) instead of being stamped with the engine that performed
the analysis, contrary to the claim. -/
theorem C4_counterexample :
    runReanalysis "librosa" [reCandBothNone] = [] ∧
    reanalysisUpdates "librosa" [reCandBothNone] = [] ∧
    reCandBothNone.meta.engine = "essentia" := by decide

/-- C4, amended claim. For every re-analysis candidate the merged metadata
overwrites BPM only on a non-`None`, positive result and key only on a
non-`None` result (a `None` result leaves the prior value), and carries the
analyzing engine's tag; however the merged record is persisted only when at
least one field was actually updated — the flushed update calls contain
exactly the candidates whose `updated_something` flag held, so a candidate
with both results `None` keeps all its prior stored values, including the
engine tag. -/
theorem C4_merge_semantics :
    (∀ (e : String) (m : Meta) (br : Option ℚ) (kr : Option String),
        (mergeStep e m br kr).1.engine = e ∧
        (br = none → (mergeStep e m br kr).1.bpm = m.bpm) ∧
        (∀ b, br = some b → 0 < b → (mergeStep e m br kr).1.bpm = b) ∧
        (kr = none → (mergeStep e m br kr).1.key = m.key) ∧
        (∀ k, kr = some k → (mergeStep e m br kr).1.key = k)) ∧
    (∀ (e : String) (cands : List ReCand),
        (runReanalysis e cands).flatten = reanalysisUpdates e cands) ∧
    (∀ (e : String) (c : ReCand),
        reanalysisUpdates e [c] =
          if (mergeStep e c.meta c.bpmRes c.keyRes).2 = true then
            [(c.id, (mergeStep e c.meta c.bpmRes c.keyRes).1)]
          else []) := by
  refine ⟨?_, ?_, ?_⟩
  · intro e m br kr
    refine ⟨mergeStep_engine e m br kr, ?_, ?_, ?_, ?_⟩
    · intro hbr; rw [hbr]; exact mergeStep_bpm_none e m kr
    · intro b hbr hb; rw [hbr]; exact mergeStep_bpm_some e m kr b hb
    · intro hkr; rw [hkr]; exact mergeStep_key_none e m br
    · intro k hkr; rw [hkr]; exact mergeStep_key_some e m br k
  · intro e cands
    exact reanalysisLoop_flatten e cands []
  · intro e c
    exact reanalysisUpdates_singleton e c

/-- C4, witness: a candidate with a fresh BPM of 120 and no key result gets
its BPM overwritten, its key left untouched, and the engine tag stamped. -/
theorem C4_merge_semantics_witness :
    (mergeStep "librosa" ⟨0, "", ""⟩ (some 120) none).1.bpm = 120 ∧
    (mergeStep "librosa" ⟨0, "", ""⟩ (some 120) none).1.key = "" ∧
    (mergeStep "librosa" ⟨0, "", ""⟩ (some 120) none).1.engine = "librosa" :=
  ⟨(C4_merge_semantics.1 "librosa" ⟨0, "", ""⟩ (some 120) none).2.2.1 120 rfl
      (by norm_num),
   (C4_merge_semantics.1 "librosa" ⟨0, "", ""⟩ (some 120) none).2.2.2.1 rfl,
   (C4_merge_semantics.1 "librosa" ⟨0, "", ""⟩ (some 120) none).1⟩

/-- C5 (confirmed). Given the store's ranked response (distances in
non-decreasing order, the contract of the nearest-neighbor query), the
search-and-filter pipeline returns at most `top_k` results, each paired
similarity equals `clamp(0,100,(1 - d/2)*100)` of its store distance, and
the returned similarities are in non-increasing order. -/
theorem C5_search_pipeline (s : FilterSettings) (topK : ℕ)
    (store : List SearchItem)
    (hsorted : (store.map SearchItem.score).Sorted (· ≤ ·)) :
    (doSearch s topK store).length ≤ topK ∧
    (∀ p ∈ doSearch s topK store, p.2 = similarityPercent p.1.score) ∧
    ((doSearch s topK store).map Prod.snd).Sorted (fun a b => b ≤ a) := by
  refine ⟨?_, ?_, ?_⟩
  · rw [doSearch, List.length_take]
    exact min_le_left _ _
  · intro p hp
    have hp' : p ∈ applyFilters s (store.take (min 100 (topK * 3))) :=
      List.mem_of_mem_take hp
    simp only [applyFilters, List.mem_map] at hp'
    obtain ⟨it, hit, hpe⟩ := hp'
    rw [← hpe]
  · have h0 : store.Pairwise (fun a b => a.score ≤ b.score) :=
      List.pairwise_map.mp hsorted
    have h1 : (store.take (min 100 (topK * 3))).Pairwise
        (fun a b => a.score ≤ b.score) :=
      List.Pairwise.sublist (List.take_sublist _ _) h0
    have h2 : ((store.take (min 100 (topK * 3))).filter (keepItem s)).Pairwise
        (fun a b => a.score ≤ b.score) :=
      List.Pairwise.sublist (List.filter_sublist _) h1
    have h3 : (((store.take (min 100 (topK * 3))).filter (keepItem s)).map
        (fun it => similarityPercent it.score)).Pairwise (fun a b => b ≤ a) := by
      rw [List.pairwise_map]
      exact h2.imp (fun hab => similarityPercent_antitone hab)
    have heq : (doSearch s topK store).map Prod.snd =
        (((store.take (min 100 (topK * 3))).filter (keepItem s)).map
          (fun it => similarityPercent it.score)).take topK := by
      rw [doSearch, applyFilters, List.map_take, List.map_map]
      rfl
    rw [heq]
    exact List.Pairwise.sublist (List.take_sublist _ _) h3

/-- C5, witness: the pipeline run on a one-item sorted store response with
no-op filter settings. -/
theorem C5_search_pipeline_witness :
    (demoStore.map SearchItem.score).Sorted (· ≤ ·) ∧
    (doSearch demoSettings 5 demoStore).length ≤ 5 := by
  have hs : (demoStore.map SearchItem.score).Sorted (· ≤ ·) := by
    simp [demoStore]
  exact ⟨hs, (C5_search_pipeline demoSettings 5 demoStore hs).1⟩

/-- C6 (confirmed). For every base tempo the detector produces, the BPM
post-processing of either engine — librosa (`get_bpm_and_key`) or essentia
(`get_bpm_and_key_essentia`) — returns `None` or a value in [40, 200]; in
particular never zero or negative. -/
theorem C6_tempo_range :
    ∀ base b : ℚ,
      (librosaBpmPost base = some b → 0 < b ∧ 40 ≤ b ∧ b ≤ 200) ∧
      (essentiaBpmPost base = some b → 0 < b ∧ 40 ≤ b ∧ b ≤ 200) := by
  intro base b
  constructor
  · intro h
    rw [librosaBpmPost] at h
    exact bpmPost_core h
  · intro h
    rw [essentiaBpmPost] at h
    by_cases hb : (0 : ℚ) < base
    · rw [if_pos hb] at h
      exact bpmPost_core h
    · rw [if_neg hb] at h
      simp at h

/-- C6, witness: base tempo 70 yields 140 on both engines, and 140 lies in
the claimed range. -/
theorem C6_tempo_range_witness :
    librosaBpmPost 70 = some 140 ∧ essentiaBpmPost 70 = some 140 ∧
    (0 < (140 : ℚ) ∧ 40 ≤ (140 : ℚ) ∧ (140 : ℚ) ≤ 200) := by
  have h1 : librosaBpmPost 70 = some 140 := by
    norm_num [librosaBpmPost, validCandidates, octaveCandidates, List.filter,
      minByDist120, pyRound1, roundHalfEven]
  have h2 : essentiaBpmPost 70 = some 140 := by
    norm_num [essentiaBpmPost, validCandidates, octaveCandidates, List.filter,
      minByDist120, pyRound1, roundHalfEven]
  exact ⟨h1, h2, (C6_tempo_range 70 140).1 h1⟩

/-- C7 (confirmed). The octave-correction heuristic: the selected candidate
always comes from the [40, 200]-filtered candidate list and minimizes the
absolute distance to 120 over it; a base tempo of 70 yields candidates
{70, 140} with 140 selected, and a base tempo of 170 yields candidates
{170, 85} with 85 selected. -/
theorem C7_octave_selection :
    (∀ base q : ℚ, minByDist120 (validCandidates base) = some q →
        q ∈ validCandidates base ∧
          ∀ c ∈ validCandidates base, |q - 120| ≤ |c - 120|) ∧
    (∀ base c : ℚ, c ∈ validCandidates base → 40 ≤ c ∧ c ≤ 200) ∧
    octaveCandidates 70 = [70, 140] ∧ librosaBpmPost 70 = some 140 ∧
    octaveCandidates 170 = [170, 85] ∧ librosaBpmPost 170 = some 85 := by
  refine ⟨?_, ?_, ?_, ?_, ?_, ?_⟩
  · intro base q h
    exact ⟨minByDist120_mem h, minByDist120_min h⟩
  · intro base c h
    exact mem_validCandidates h
  · norm_num [octaveCandidates]
  · norm_num [librosaBpmPost, validCandidates, octaveCandidates, List.filter,
      minByDist120, pyRound1, roundHalfEven]
  · norm_num [octaveCandidates]
  · norm_num [librosaBpmPost, validCandidates, octaveCandidates, List.filter,
      minByDist120, pyRound1, roundHalfEven]

/-- C7, witness: the selection at base tempo 70 — the minimizer 140 is a
member of the filtered candidate list. -/
theorem C7_octave_selection_witness :
    minByDist120 (validCandidates 70) = some 140 ∧
    (140 : ℚ) ∈ validCandidates 70 := by
  have hv : validCandidates 70 = [70, 140] := by
    norm_num [validCandidates, octaveCandidates, List.filter]
  have hm : minByDist120 (validCandidates 70) = some 140 := by
    rw [hv]; norm_num [minByDist120]
  exact ⟨hm, (C7_octave_selection.1 70 140 hm).1⟩

/-- C8 (confirmed). Under an active BPM range filter such as [120, 130], a
record with `bpm == 0` (unknown) always passes, a record with `bpm == 90`
is excluded, and the range test is only ever applied to records with
`bpm > 0` — every non-positive BPM passes any range. -/
theorem C8_bpm_filter :
    (∀ minB maxB : ℚ, bpmPass minB maxB 0 = true) ∧
    bpmPass 120 130 90 = false ∧
    (∀ minB maxB b : ℚ, b ≤ 0 → bpmPass minB maxB b = true) := by
  refine ⟨?_, by decide, ?_⟩
  · intro minB maxB
    rw [bpmPass]
    split
    · rw [if_neg (by norm_num : ¬(0 : ℚ) > 0)]
    · rfl
  · intro minB maxB b hb
    rw [bpmPass]
    split
    · rw [if_neg (not_lt.mpr hb)]
    · rfl

/-- C8, witness: a record with BPM -5 (non-positive) passes the active
[120, 130] range. -/
theorem C8_bpm_filter_witness :
    ((-5 : ℚ) ≤ 0) ∧ bpmPass 120 130 (-5) = true :=
  ⟨by norm_num, C8_bpm_filter.2.2 120 130 (-5) (by norm_num)⟩

/-- C9 (confirmed). Running indexing over a directory all of whose supported
audio files are already ids in the store yields a newly-indexed count of 0,
no store writes, and no progress reports — existing records are untouched
because the only mutations `run_indexing` performs are its
`collection.add` calls. -/
theorem C9_reindex_idempotent (existing : List String) (files : List FileInfo)
    (h : ∀ f ∈ files, supportedAudio f.name = true →
      existing.contains f.path = true) :
    (runIndexing existing files).count = 0 ∧
    (runIndexing existing files).storeCalls = [] ∧
    (runIndexing existing files).progress = [] := by
  have hsel : selectCandidates existing files = [] := by
    rw [selectCandidates, List.filter_eq_nil_iff]
    intro f hf
    by_cases hs : supportedAudio f.name = true
    · have hc := h f hf hs
      have hmem : f.path ∈ existing := by simpa using hc
      simp [hs, hc, hmem]
    · simp only [Bool.not_eq_true] at hs
      simp [hs]
  simp only [runIndexing, hsel]
  exact ⟨rfl, rfl, rfl⟩

/-- C9, witness: one supported file whose path is already an id. -/
theorem C9_reindex_idempotent_witness :
    (∀ f ∈ [demoFile], supportedAudio f.name = true →
        (["samples/kick2.wav"] : List String).contains f.path = true) ∧
    (runIndexing ["samples/kick2.wav"] [demoFile]).count = 0 ∧
    (runIndexing ["samples/kick2.wav"] [demoFile]).storeCalls = [] := by
  have h : ∀ f ∈ [demoFile], supportedAudio f.name = true →
      (["samples/kick2.wav"] : List String).contains f.path = true := by decide
  have hc := C9_reindex_idempotent ["samples/kick2.wav"] [demoFile] h
  exact ⟨h, hc.1, hc.2.1⟩

/-- C10 (confirmed). With the exact key-equality filter set to any specific
option (every combo-box entry other than "All" uses lower-case
"maj"/"min"), every key string the librosa engine can emit (capitalized
" Maj"/" Min") fails the exact string comparison and is excluded, while an
essentia-formatted key such as "C maj" can match. -/
theorem C10_key_filter_mismatch :
    (∀ filt ∈ keyFilterOptions, filt ≠ "All" →
        ∀ k ∈ librosaKeyStrings, keyPass filt k = false) ∧
    keyPass "C maj" (essentiaKeyString "C" "major") = true := by
  constructor
  · have hall : keyFilterOptions.all (fun filt =>
        decide (filt = "All") ||
          librosaKeyStrings.all (fun k => !(keyPass filt k))) = true := by decide
    intro filt hf hne k hk
    have h1 := List.all_eq_true.mp hall filt hf
    simp only [Bool.or_eq_true, decide_eq_true_eq] at h1
    rcases h1 with h1 | h1
    · exact absurd h1 hne
    · have h2 := List.all_eq_true.mp h1 k hk
      simpa using h2
  · decide

/-- C10, witness: the filter option "C maj" rejects the librosa key "C Maj"
and accepts the essentia key "C maj". -/
theorem C10_key_filter_mismatch_witness :
    keyPass "C maj" "C Maj" = false ∧
    keyPass "C maj" (essentiaKeyString "C" "major") = true :=
  ⟨C10_key_filter_mismatch.1 "C maj" (by decide) (by decide) "C Maj" (by decide),
   C10_key_filter_mismatch.2⟩

end SampleSearcher
